import Mathlib

set_option maxRecDepth 8192

/-!
Verification development for the `electionguard-verify` repository.

The repository's engine (`electionguard_verify/verify.py` together with
`electionguard_verify/utils.py`) is shallowly embedded below.  Big integers
are `Nat` with explicit modular reduction.  Python `None` becomes `Option`,
a Python `dict` becomes an insertion-ordered association list, and a Python
exception (attribute access on `None`) becomes `Option.none` threaded
through the computation.  The group and hash services come from the external
`electionguard` package and the repository's `constants.py` (which is not
part of the engine sources); following the specification they are treated
as parameters: a `Crypto` record carries the fixed parameters p, q, r, g
and the canonical hash function, and the modular operations are modelled
from the specification's BigModArith contract.
-/

/-- Modelled from the spec: the fixed cryptographic parameters `P`, `Q`, `R`,
`G` of the repository's `constants.py` (not present under `src/`) and the
canonical `hash_elems` function of the external `electionguard` package.
All call sites of `hash_elems` in the engine pass numeric arguments only,
so the hash is a function from a list of naturals to a natural. -/
structure Crypto where
  P : Nat
  Q : Nat
  R : Nat
  G : Nat
  H : List Nat → Nat

/-- Modelled from the spec: `mul_p(a,b) = a*b mod p` of the external group
library. -/
def mult_p (c : Crypto) (a b : Nat) : Nat :=
  a * b % c.P

/-- Modelled from the spec: the variadic form of `mult_p`, a fold of the
modular product over arbitrarily many factors starting from 1. -/
def multPList (c : Crypto) (xs : List Nat) : Nat :=
  xs.foldl (fun acc x => acc * x % c.P) 1

/-- Modelled from the spec: `pow_p(a,e) = a^e mod p`. -/
def pow_p (c : Crypto) (a e : Nat) : Nat :=
  a ^ e % c.P

/-- Modelled from the spec: `add_q(a,b) = (a+b) mod q`. -/
def add_q (c : Crypto) (a b : Nat) : Nat :=
  (a + b) % c.Q

/-- Modelled from the spec: `int_to_p` lifts a small integer into the field;
`int_to_p(1)` is the multiplicative identity used to seed fold accumulators. -/
def int_to_p (c : Crypto) (x : Nat) : Nat :=
  x % c.P

/-- Modelled from the spec: `is_valid_residue(x) = (x^q mod p == 1) ∧ (1 ≤ x < p)`,
the q-th-residue membership test for the order-q subgroup. -/
def is_valid_residue (c : Crypto) (x : Nat) : Bool :=
  (x ^ c.Q % c.P == 1) && decide (1 ≤ x) && decide (x < c.P)

/-- Modelled from the spec: `is_in_bounds_q(x) = (0 ≤ x < q)`; the lower bound
is automatic for naturals. -/
def is_in_bounds (c : Crypto) (x : Nat) : Bool :=
  decide (x < c.Q)

/-! ## Data model (the entities consumed by `verify`) -/

/-- Artifact `ElectionConstants`: the published group parameters. -/
structure ElectionConstants where
  large_prime : Nat
  small_prime : Nat
  cofactor : Nat
  generator : Nat
deriving DecidableEq, Repr

/-- Artifact `CiphertextElectionContext`. -/
structure Context where
  number_of_guardians : Nat
  quorum : Nat
  elgamal_public_key : Nat
  crypto_base_hash : Nat
  crypto_extended_base_hash : Nat
deriving DecidableEq, Repr

/-- One contest of the election manifest. -/
structure ContestDescription where
  object_id : String
  votes_allowed : Nat
deriving DecidableEq, Repr

/-- The election manifest; `crypto_hash` stands for the manifest's
`crypto_hash()` method result. -/
structure ElectionDescription where
  contests : List ContestDescription
  crypto_hash : Nat
deriving DecidableEq, Repr

/-- An ElGamal ciphertext (pad, data). -/
structure ElGamalCiphertext where
  pad : Nat
  data : Nat
deriving DecidableEq, Repr

/-- The disjunctive Chaum-Pedersen proof attached to a ballot selection. -/
structure DisjunctiveProof where
  proof_zero_pad : Nat
  proof_zero_data : Nat
  proof_one_pad : Nat
  proof_one_data : Nat
  proof_zero_challenge : Nat
  proof_one_challenge : Nat
  proof_zero_response : Nat
  proof_one_response : Nat
  challenge : Nat
deriving DecidableEq, Repr

/-- A ballot selection with its ciphertext and disjunctive proof. -/
structure BallotSelection where
  object_id : String
  ciphertext : ElGamalCiphertext
  proof : DisjunctiveProof
  is_placeholder_selection : Bool
deriving DecidableEq, Repr

/-- The contest-aggregate proof; the engine reads only its `response`. -/
structure ContestProof where
  response : Nat
deriving DecidableEq, Repr

/-- A ballot contest.  Its aggregate `proof` is optional in the data model;
the engine dereferences it without a check. -/
structure BallotContest where
  object_id : String
  ballot_selections : List BallotSelection
  proof : Option ContestProof
deriving DecidableEq, Repr

/-- Ballot box state of an accepted ballot. -/
inductive BallotBoxState where
  | cast
  | spoiled
  | unknown
deriving DecidableEq, Repr, BEq

/-- A ciphertext accepted ballot. -/
structure Ballot where
  object_id : String
  state : BallotBoxState
  contests : List BallotContest
deriving DecidableEq, Repr

/-- A Schnorr-style coefficient proof of a guardian. -/
structure SchnorrProof where
  public_key : Nat
  commitment : Nat
  challenge : Nat
  response : Nat
deriving DecidableEq, Repr

/-- A guardian's coefficient validation set. -/
structure CoefficientValidationSet where
  owner_id : String
  coefficient_commitments : List Nat
  coefficient_proofs : List SchnorrProof
deriving DecidableEq, Repr

/-- A Chaum-Pedersen proof carried by a tally share or recovered part. -/
structure CPProof where
  pad : Nat
  data : Nat
  challenge : Nat
  response : Nat
deriving DecidableEq, Repr

/-- A recovered part of a missing guardian's share. -/
structure RecoveredPart where
  guardian_id : String
  share : Nat
  recovery_key : Nat
  proof : CPProof
deriving DecidableEq, Repr

/-- A decryption share of a tally selection.  `proof` is `none` when the
Python field is `None`; `recovered_parts` lists the values of the Python
dict, with the empty list standing for both `None` and an empty dict (both
are falsy at every branch the engine takes). -/
structure TallyShare where
  guardian_id : String
  share : Nat
  proof : Option CPProof
  recovered_parts : List RecoveredPart
deriving DecidableEq, Repr

/-- A plaintext-tally selection. -/
structure TallySelection where
  object_id : String
  message : ElGamalCiphertext
  value : Nat
  tally : Nat
  shares : List TallyShare
deriving DecidableEq, Repr

/-- A plaintext-tally contest; `selections` lists the dict's values in
iteration order. -/
structure TallyContest where
  object_id : String
  selections : List TallySelection
deriving DecidableEq, Repr

/-- The plaintext tally; `spoiled_ballots` lists, per spoiled ballot, the
contest structures of that ballot in iteration order. -/
structure PlaintextTally where
  contests : List TallyContest
  spoiled_ballots : List (List TallyContest)
deriving DecidableEq, Repr

/-- The artifact handed to `verify`.  The source's `devices`,
`spoiled_ballots` and `ciphertext_tally` parameters are never read by the
engine and are omitted. -/
structure Artifact where
  description : ElectionDescription
  context : Context
  constants : ElectionConstants
  ciphertext_ballots : List Ballot
  plaintext_tally : PlaintextTally
  coefficient_validation_sets : List CoefficientValidationSet
deriving DecidableEq, Repr

/-! ## Python dict on string keys, as an insertion-ordered association list -/

/-- Python dict assignment: replace the value at an existing key in place,
otherwise append the new binding at the end. -/
def dictInsert {β : Type} : List (String × β) → String → β → List (String × β)
  | [], k, v => [(k, v)]
  | (k', v') :: rest, k, v =>
      if k' == k then (k', v) :: rest else (k', v') :: dictInsert rest k v

/-- Python dict lookup returning `None` for a missing key. -/
def dictLookup {β : Type} : List (String × β) → String → Option β
  | [], _ => none
  | (k', v') :: rest, k => if k' == k then some v' else dictLookup rest k

/-- Python `key in dict`. -/
def dictContains {β : Type} : List (String × β) → String → Bool
  | [], _ => false
  | (k', _) :: rest, k => k' == k || dictContains rest k

/-! ## Invariants (utils.py) -/

/-- The `Invariants` class of `utils.py`: a title and an insertion-ordered
mapping from invariant labels to their accumulated truth value. -/
structure Invariants where
  title : String
  conditions : List (String × Bool)
deriving DecidableEq, Repr

/-- Replace the stored value at label `l` by its conjunction with `c`
(`self.conditions[invariant] = self.conditions[invariant] and condition`). -/
def updateKey : List (String × Bool) → String → Bool → List (String × Bool)
  | [], _, _ => []
  | (k, v) :: rest, l, c =>
      if k == l then (k, v && c) :: rest else (k, v) :: updateKey rest l c

/-- The `ensure` method of `Invariants`: AND with the stored value when the
label is already present, record the condition otherwise; the condition is
returned to the caller. -/
def Invariants.ensure (inv : Invariants) (l : String) (c : Bool) : Invariants × Bool :=
  if dictContains inv.conditions l then
    (⟨inv.title, updateKey inv.conditions l c⟩, c)
  else
    (⟨inv.title, inv.conditions ++ [(l, c)]⟩, c)

/-- The engine never consumes the value returned by `ensure`; this is the
statement-level use of the method. -/
def ensureC (inv : Invariants) (l : String) (c : Bool) : Invariants :=
  (inv.ensure l c).1

/-- The `validate` method: the conjunction of all recorded states, folded in
insertion order (`validity = validity and state`).  The logging side effect
is modelled by the stage-title trace of `verifyLog` below. -/
def Invariants.validate (inv : Invariants) : Bool :=
  inv.conditions.foldl (fun validity kv => validity && kv.2) true

/-! ## utils.py lookup helpers -/

/-- `get_first_el`: the head of the list, or `None` when it is empty. -/
def get_first_el {α : Type} : List α → Option α
  | [] => none
  | x :: _ => some x

/-- Loop body of `get_contest`: scan the contests, remembering the first
match and returning `None` immediately on a second match. -/
def getContestAux (cid : String) : List BallotContest → Option BallotContest → Option BallotContest
  | [], result => result
  | ct :: rest, result =>
      if ct.object_id == cid then
        match result with
        | some _ => none
        | none => getContestAux cid rest (some ct)
      else getContestAux cid rest result

/-- `get_contest`: the unique contest of the ballot with the given id, or
`None` when it is absent or duplicated. -/
def get_contest (b : Ballot) (cid : String) : Option BallotContest :=
  getContestAux cid b.contests none

/-- Loop body of `get_selection`, scanning one contest's selections. -/
def getSelectionAux (sid : String) : List BallotSelection → Option BallotSelection → Option BallotSelection
  | [], result => result
  | s :: rest, result =>
      if s.object_id == sid then
        match result with
        | some _ => none
        | none => getSelectionAux sid rest (some s)
      else getSelectionAux sid rest result

/-- `get_selection`: the unique selection with the given id inside the unique
contest with the given id, or `None` when either is absent or duplicated. -/
def get_selection (b : Ballot) (cid sid : String) : Option BallotSelection :=
  match get_contest b cid with
  | none => none
  | some contest => getSelectionAux sid contest.ballot_selections none

/-- The `Contests` index of `utils.py`: contest descriptions keyed by
`object_id`, built with Python dict assignment. -/
def contestsIndex (d : ElectionDescription) : List (String × ContestDescription) :=
  d.contests.foldl (fun m ct => dictInsert m ct.object_id ct) []

/-- The `Guardians` index of `utils.py`: coefficient validation sets keyed by
`owner_id`. -/
def guardiansIndex (gs : List CoefficientValidationSet) : List (String × CoefficientValidationSet) :=
  gs.foldl (fun m g => dictInsert m g.owner_id g) []

/-! ## Invariant labels and stage titles

The source labels contain mathematical Unicode; they are transliterated to
ASCII here, preserving exactly which labels coincide and which differ. -/

def titleParameters : String := "Election Parameters"

def titlePublicKeys : String := "Guardian Public Keys"

def titleSelections : String := "Ballot Selection Encryptions"

def titleVoteLimits : String := "Vote Limits"

def titleChaining : String := "Ballot Chaining"

def titleAggregations : String := "Ballot Aggregations & Partial Decryptions"

def titleMissing : String := "Recovered Data for Missing Guardians"

def titleRecon : String := "Reconstructed Partial Decryptions for Missing Guardians"

def titleTallyDec : String := "Decryption of Tallies"

def titleSpoils : String := "Spoiled Ballots"

def lblPCorrect : String := "p is correct"

def lblQCorrect : String := "q is correct"

def lblRCorrect : String := "r is correct"

def lblGCorrect : String := "g is correct"

def lblKGeOne : String := "k >= 1"

def lblKLeN : String := "k <= n"

def lblBaseHash : String := "Q = H(p,Q,g,n,k,d)"

def lblCoeffChallenge : String := "cij = H(Kij,hij)"

def lblSchnorr : String := "g^uij mod p = hij Kij^cij mod p"

def lblJointKey : String := "K = prod(i=1..n) Ki mod p"

def lblExtendedHash : String := "Qbar = H(Q,K)"

def lblAlphaRes : String := "alpha in Zp^r"

def lblBetaRes : String := "beta in Zp^r"

def lblA0Res : String := "a0 in Zp^r"

def lblB0Res : String := "b0 in Zp^r"

def lblA1Res : String := "a1 in Zp^r"

def lblB1Res : String := "b1 in Zp^r"

def lblDisjChallenge : String := "c = H(Qbar,alpha,beta,a0,b0,a1,b1)"

def lblC0Bounds : String := "c0 in Zq"

def lblC1Bounds : String := "c1 in Zq"

def lblV0Bounds : String := "v0 in Zq"

def lblV1Bounds : String := "v1 in Zq"

def lblChallengeSplit : String := "c = c0+c1 mod q"

def lblZeroPadEq : String := "g^v0 = a0 alpha^c0 (mod p)"

def lblOnePadEq : String := "g^v1 = a1 alpha^c1 (mod p)"

def lblZeroDataEq : String := "K^v0 = b0 beta^c0 (mod p)"

def lblContestsAppear : String := "all contests appear in election description"

def lblPlaceholder : String := "placeholder options match contest selection limit"

def lblVBounds : String := "V in Zq"

def lblAProd : String := "A = prod(j) alphaj"

def lblBProd : String := "B = prod(j) betaj"

def lblVi : String := "vi in Zq"

def lblAi : String := "ai in Zp^r"

def lblBi : String := "bi in Zp^r"

def lblCi : String := "ci = H(Qbar,A,B,ai,bi,Mi)"

def lblAvi : String := "A^vi = bi Mi^ci (mod p)"

def lblGvi : String := "g^vi = ai Ki^ci (mod p)"

def lblShareGuardians : String := "tally share guardians are valid election guardians"

def lblXorShare : String := "tally share contains exactly one proof or recovered part"

def lblVil : String := "vil in Zq"

def lblAil : String := "ail in Zp^r"

def lblBil : String := "bil in Zp^r"

def lblCil : String := "cil = H(Qbar,A,B,ail,bil,Mil)"

def lblAvil : String := "A^vil = bil Mil^cil (mod p)"

def lblGvil : String := "g^vil = ail (prod(j=0..k-1) Kij^lj)^cil (mod p)"

def lblReconGuardians : String := "tally share reconstruction guardians are valid election guardians"

def lblTallyContestKnown : String := "tally contest label exists in ballot coding file"

def lblDecB : String := "B = M (prod(i=1..n) Mi) mod p"

def lblDecM : String := "M = g^t mod p"

/-! ## A fold that propagates a Python exception as `none` -/

/-- Left fold of a state-transforming loop body whose iteration may raise;
an exception aborts the whole fold. -/
def foldOptS {σ α : Type} (f : σ → α → Option σ) : List α → σ → Option σ
  | [], s => some s
  | x :: xs, s =>
      match f s x with
      | none => none
      | some s' => foldOptS f xs s'

/-! ## Stage 1: election parameters -/

/-- Stage `Election Parameters` (verify.py lines 37-44). -/
def stage1 (c : Crypto) (a : Artifact) : Invariants :=
  let i := Invariants.mk titleParameters []
  let i := ensureC i lblPCorrect (a.constants.large_prime == c.P)
  let i := ensureC i lblQCorrect (a.constants.small_prime == c.Q)
  let i := ensureC i lblRCorrect (a.constants.cofactor == c.R)
  let i := ensureC i lblGCorrect (a.constants.generator == c.G)
  let i := ensureC i lblKGeOne (decide (a.context.quorum ≥ 1))
  let i := ensureC i lblKLeN (decide (a.context.number_of_guardians ≥ a.context.quorum))
  ensureC i lblBaseHash (a.context.crypto_base_hash ==
    c.H [c.P, c.Q, c.G, a.context.number_of_guardians, a.context.quorum,
         a.description.crypto_hash])

/-! ## Stage 2: guardian public keys -/

/-- Per-proof checks of a guardian's coefficient proofs (verify.py 53-56). -/
def s2ProofStep (c : Crypto) (gen : Nat) (i : Invariants) (pr : SchnorrProof) : Invariants :=
  let i := ensureC i lblCoeffChallenge (pr.challenge == c.H [pr.public_key, pr.commitment])
  ensureC i lblSchnorr
    (pow_p c gen pr.response == mult_p c pr.commitment (pow_p c pr.public_key pr.challenge))

/-- One iteration of the guardian fold (verify.py 51-56).  `get_first_el`
returns `None` on an empty commitment list; `mult_p` then raises, which the
`Option` models. -/
def s2Guardian (c : Crypto) (gen : Nat) (st : Invariants × Nat)
    (g : CoefficientValidationSet) : Option (Invariants × Nat) :=
  match get_first_el g.coefficient_commitments with
  | none => none
  | some k0 =>
      some (g.coefficient_proofs.foldl (s2ProofStep c gen) st.1, mult_p c st.2 k0)

/-- Stage `Guardian Public Keys` (verify.py 49-61): the guardian fold, then
the joint-key and extended-base-hash assertions.  Returns the invariant set
together with the accumulated `elgamal_public_key` product. -/
def stage2 (c : Crypto) (a : Artifact) : Option (Invariants × Nat) :=
  match foldOptS (s2Guardian c a.constants.generator) a.coefficient_validation_sets
      (Invariants.mk titlePublicKeys [], int_to_p c 1) with
  | none => none
  | some (i, key) =>
      let i := ensureC i lblJointKey (a.context.elgamal_public_key == key)
      let i := ensureC i lblExtendedHash (a.context.crypto_extended_base_hash ==
        c.H [a.context.crypto_base_hash, a.context.elgamal_public_key])
      some (i, key)

/-! ## Stage 3: ballot selection encryptions -/

/-- Per-selection checks of stage 3 (verify.py 70-84).  The condition labelled
`b1 in Zp^r` tests `proof_one_pad`, exactly as source line 75 does. -/
def s3Selection (c : Crypto) (gen K qbar : Nat) (i : Invariants)
    (sel : BallotSelection) : Invariants :=
  let i := ensureC i lblAlphaRes (is_valid_residue c sel.ciphertext.pad)
  let i := ensureC i lblBetaRes (is_valid_residue c sel.ciphertext.data)
  let i := ensureC i lblA0Res (is_valid_residue c sel.proof.proof_zero_pad)
  let i := ensureC i lblB0Res (is_valid_residue c sel.proof.proof_zero_data)
  let i := ensureC i lblA1Res (is_valid_residue c sel.proof.proof_one_pad)
  let i := ensureC i lblB1Res (is_valid_residue c sel.proof.proof_one_pad)
  let i := ensureC i lblDisjChallenge (sel.proof.challenge ==
    c.H [qbar, sel.ciphertext.pad, sel.ciphertext.data, sel.proof.proof_zero_pad,
         sel.proof.proof_zero_data, sel.proof.proof_one_pad, sel.proof.proof_one_data])
  let i := ensureC i lblC0Bounds (is_in_bounds c sel.proof.proof_zero_challenge)
  let i := ensureC i lblC1Bounds (is_in_bounds c sel.proof.proof_one_challenge)
  let i := ensureC i lblV0Bounds (is_in_bounds c sel.proof.proof_zero_response)
  let i := ensureC i lblV1Bounds (is_in_bounds c sel.proof.proof_one_response)
  let i := ensureC i lblChallengeSplit (sel.proof.challenge ==
    add_q c sel.proof.proof_zero_challenge sel.proof.proof_one_challenge)
  let i := ensureC i lblZeroPadEq (pow_p c gen sel.proof.proof_zero_response ==
    mult_p c sel.proof.proof_zero_pad (pow_p c sel.ciphertext.pad sel.proof.proof_zero_challenge))
  let i := ensureC i lblOnePadEq (pow_p c gen sel.proof.proof_one_response ==
    mult_p c sel.proof.proof_one_pad (pow_p c sel.ciphertext.pad sel.proof.proof_one_challenge))
  ensureC i lblZeroDataEq (pow_p c K sel.proof.proof_zero_response ==
    mult_p c sel.proof.proof_zero_data (pow_p c sel.ciphertext.data sel.proof.proof_zero_challenge))

/-- Contest loop of stage 3. -/
def s3Contest (c : Crypto) (gen K qbar : Nat) (i : Invariants) (ct : BallotContest) : Invariants :=
  ct.ballot_selections.foldl (s3Selection c gen K qbar) i

/-- Ballot loop of stage 3. -/
def s3Ballot (c : Crypto) (gen K qbar : Nat) (i : Invariants) (b : Ballot) : Invariants :=
  b.contests.foldl (s3Contest c gen K qbar) i

/-- Stage `Ballot Selection Encryptions` (verify.py 66-87). -/
def stage3 (c : Crypto) (a : Artifact) : Invariants :=
  a.ciphertext_ballots.foldl
    (s3Ballot c a.constants.generator a.context.elgamal_public_key
      a.context.crypto_extended_base_hash)
    (Invariants.mk titleSelections [])

/-! ## Stage 4: vote limits -/

/-- Per-contest checks of stage 4 (verify.py 96-100).  `contest.proof` is
dereferenced without a `None` check; a missing contest proof raises. -/
def s4Contest (c : Crypto) (d : ElectionDescription) (i : Invariants)
    (ct : BallotContest) : Option Invariants :=
  let cd := dictLookup (contestsIndex d) ct.object_id
  let i := ensureC i lblContestsAppear cd.isSome
  let i :=
    match cd with
    | some cdesc =>
        ensureC i lblPlaceholder
          ((ct.ballot_selections.countP (fun s => s.is_placeholder_selection)) == cdesc.votes_allowed)
    | none => i
  match ct.proof with
  | none => none
  | some pr => some (ensureC i lblVBounds (is_in_bounds c pr.response))

/-- Ballot loop of stage 4. -/
def s4Ballot (c : Crypto) (d : ElectionDescription) (i : Invariants) (b : Ballot) : Option Invariants :=
  foldOptS (fun i ct => s4Contest c d i ct) b.contests i

/-- Stage `Vote Limits` (verify.py 92-103). -/
def stage4 (c : Crypto) (a : Artifact) : Option Invariants :=
  foldOptS (fun i b => s4Ballot c a.description i b) a.ciphertext_ballots
    (Invariants.mk titleVoteLimits [])

/-! ## Stage 5: ballot chaining (no conditions are asserted) -/

/-- Stage `Ballot Chaining` (verify.py 107-113): an empty invariant set. -/
def chainingInv : Invariants :=
  Invariants.mk titleChaining []

/-! ## Stage 6: tally aggregation and direct shares -/

/-- One cast ballot's contribution to the recomputed aggregate ciphertext
(verify.py 123-128): skipped entirely when `get_selection` returns `None`. -/
def aggStep (c : Crypto) (cid sid : String) (acc : Nat × Nat) (b : Ballot) : Nat × Nat :=
  if b.state == BallotBoxState.cast then
    match get_selection b cid sid with
    | some bs => (mult_p c acc.1 bs.ciphertext.pad, mult_p c acc.2 bs.ciphertext.data)
    | none => acc
  else acc

/-- The checks run on a share that carries a direct proof (verify.py 133-141,
also 193-201 for spoiled ballots).  `guardians[id]` is consulted only after
the membership test; the engine then takes the first coefficient commitment,
raising when the commitment list is empty. -/
def directShareChecks (c : Crypto) (gu : List (String × CoefficientValidationSet))
    (gen qbar : Nat) (sel : TallySelection) (i : Invariants) (sh : TallyShare)
    (pr : CPProof) : Option Invariants :=
  let i := ensureC i lblVi (is_in_bounds c pr.response)
  let i := ensureC i lblAi (is_valid_residue c pr.pad)
  let i := ensureC i lblBi (is_valid_residue c pr.data)
  let i := ensureC i lblCi (pr.challenge ==
    c.H [qbar, sel.message.pad, sel.message.data, pr.pad, pr.data, sh.share])
  let i := ensureC i lblAvi (pow_p c sel.message.pad pr.response ==
    mult_p c pr.data (pow_p c sh.share pr.challenge))
  match dictLookup gu sh.guardian_id with
  | some g =>
      match get_first_el g.coefficient_commitments with
      | none => none
      | some k0 =>
          some (ensureC i lblGvi (pow_p c gen pr.response ==
            mult_p c pr.pad (pow_p c k0 pr.challenge)))
  | none => some (ensureC i lblShareGuardians false)

/-- Share loop of stage 6 (verify.py 131-141): only shares with a direct
proof are checked here. -/
def s6Share (c : Crypto) (gu : List (String × CoefficientValidationSet))
    (gen qbar : Nat) (sel : TallySelection) (i : Invariants) (sh : TallyShare) :
    Option Invariants :=
  match sh.proof with
  | none => some i
  | some pr => directShareChecks c gu gen qbar sel i sh pr

/-- Per-selection work of stage 6 (verify.py 120-141): recompute the
aggregate (A, B) over all cast ballots, assert the two aggregation
equalities, then check each direct share. -/
def s6Selection (c : Crypto) (gu : List (String × CoefficientValidationSet))
    (gen qbar : Nat) (ballots : List Ballot) (cid : String) (i : Invariants)
    (sel : TallySelection) : Option Invariants :=
  let ab := ballots.foldl (aggStep c cid sel.object_id) (int_to_p c 1, int_to_p c 1)
  let i := ensureC i lblAProd (sel.message.pad == ab.1)
  let i := ensureC i lblBProd (sel.message.data == ab.2)
  foldOptS (fun i sh => s6Share c gu gen qbar sel i sh) sel.shares i

/-- Contest loop of stage 6. -/
def s6Contest (c : Crypto) (gu : List (String × CoefficientValidationSet))
    (gen qbar : Nat) (ballots : List Ballot) (i : Invariants) (ct : TallyContest) :
    Option Invariants :=
  foldOptS (fun i sel => s6Selection c gu gen qbar ballots ct.object_id i sel) ct.selections i

/-- Stage `Ballot Aggregations & Partial Decryptions` (verify.py 117-141). -/
def stage6 (c : Crypto) (a : Artifact) : Option Invariants :=
  let gu := guardiansIndex a.coefficient_validation_sets
  foldOptS
    (fun i ct => s6Contest c gu a.constants.generator a.context.crypto_extended_base_hash
      a.ciphertext_ballots i ct)
    a.plaintext_tally.contests (Invariants.mk titleAggregations [])

/-! ## Stage 7: recovered data for missing guardians -/

/-- Per-part checks of a recovered share (verify.py 152-161, also 203-212 for
spoiled ballots). -/
def s7Part (c : Crypto) (gu : List (String × CoefficientValidationSet))
    (gen qbar : Nat) (sel : TallySelection) (i : Invariants) (part : RecoveredPart) :
    Invariants :=
  let i := ensureC i lblVil (is_in_bounds c part.proof.response)
  let i := ensureC i lblAil (is_valid_residue c part.proof.pad)
  let i := ensureC i lblBil (is_valid_residue c part.proof.data)
  let i := ensureC i lblCil (part.proof.challenge ==
    c.H [qbar, sel.message.pad, sel.message.data, part.proof.pad, part.proof.data, part.share])
  let i := ensureC i lblAvil (pow_p c sel.message.pad part.proof.response ==
    mult_p c part.proof.data (pow_p c part.share part.proof.challenge))
  match dictLookup gu part.guardian_id with
  | some _ =>
      ensureC i lblGvil (pow_p c gen part.proof.response ==
        mult_p c part.proof.pad (pow_p c part.recovery_key part.proof.challenge))
  | none => ensureC i lblReconGuardians false

/-- Share loop of stage 7 (verify.py 149-161): the xor assertion, then the
per-part checks when recovered parts are present. -/
def s7Share (c : Crypto) (gu : List (String × CoefficientValidationSet))
    (gen qbar : Nat) (sel : TallySelection) (i : Invariants) (sh : TallyShare) :
    Invariants :=
  let i := ensureC i lblXorShare (Bool.xor sh.proof.isNone sh.recovered_parts.isEmpty)
  if sh.recovered_parts.isEmpty then i
  else sh.recovered_parts.foldl (s7Part c gu gen qbar sel) i

/-- Selection loop of stage 7. -/
def s7Selection (c : Crypto) (gu : List (String × CoefficientValidationSet))
    (gen qbar : Nat) (i : Invariants) (sel : TallySelection) : Invariants :=
  sel.shares.foldl (s7Share c gu gen qbar sel) i

/-- Contest loop of stage 7. -/
def s7Contest (c : Crypto) (gu : List (String × CoefficientValidationSet))
    (gen qbar : Nat) (i : Invariants) (ct : TallyContest) : Invariants :=
  ct.selections.foldl (s7Selection c gu gen qbar) i

/-- Stage `Recovered Data for Missing Guardians` (verify.py 146-161). -/
def stage7 (c : Crypto) (a : Artifact) : Invariants :=
  a.plaintext_tally.contests.foldl
    (s7Contest c (guardiansIndex a.coefficient_validation_sets)
      a.constants.generator a.context.crypto_extended_base_hash)
    (Invariants.mk titleMissing [])

/-! ## Reconstructed decryptions stage (no conditions are asserted) -/

/-- Stage `Reconstructed Partial Decryptions for Missing Guardians`
(verify.py 166-171): an empty invariant set. -/
def reconInv : Invariants :=
  Invariants.mk titleRecon []

/-! ## Stage 8: decryption of tallies -/

/-- Per-selection decryption equations (verify.py 178-180). -/
def s8Selection (c : Crypto) (gen : Nat) (i : Invariants) (sel : TallySelection) : Invariants :=
  let i := ensureC i lblDecB (sel.message.data ==
    multPList c (sel.value :: sel.shares.map (fun sh => sh.share)))
  ensureC i lblDecM (sel.value == pow_p c gen sel.tally)

/-- Contest loop of stage 8 (verify.py 176-180). -/
def s8Contest (c : Crypto) (gen : Nat) (d : ElectionDescription) (i : Invariants)
    (ct : TallyContest) : Invariants :=
  let i := ensureC i lblTallyContestKnown (dictContains (contestsIndex d) ct.object_id)
  ct.selections.foldl (s8Selection c gen) i

/-- Stage `Decryption of Tallies` (verify.py 175-180). -/
def stage8 (c : Crypto) (a : Artifact) : Invariants :=
  a.plaintext_tally.contests.foldl
    (s8Contest c a.constants.generator a.description)
    (Invariants.mk titleTallyDec [])

/-! ## Spoiled ballots stage -/

/-- Share loop of the spoiled-ballots stage (verify.py 190-212): the xor
assertion, the direct checks when a proof is present, then the per-part
checks when recovered parts are present. -/
def spShare (c : Crypto) (gu : List (String × CoefficientValidationSet))
    (gen qbar : Nat) (sel : TallySelection) (i : Invariants) (sh : TallyShare) :
    Option Invariants :=
  let i := ensureC i lblXorShare (Bool.xor sh.proof.isNone sh.recovered_parts.isEmpty)
  match s6Share c gu gen qbar sel i sh with
  | none => none
  | some i =>
      some (if sh.recovered_parts.isEmpty then i
            else sh.recovered_parts.foldl (s7Part c gu gen qbar sel) i)

/-- Selection loop of the spoiled-ballots stage (verify.py 189-214): the
share checks, then the two decryption equations on the spoils set. -/
def spSelection (c : Crypto) (gu : List (String × CoefficientValidationSet))
    (gen qbar : Nat) (i : Invariants) (sel : TallySelection) : Option Invariants :=
  match foldOptS (fun i sh => spShare c gu gen qbar sel i sh) sel.shares i with
  | none => none
  | some i =>
      let i := ensureC i lblDecB (sel.message.data ==
        multPList c (sel.value :: sel.shares.map (fun sh => sh.share)))
      some (ensureC i lblDecM (sel.value == pow_p c gen sel.tally))

/-- Contest loop of the spoiled-ballots stage (verify.py 187-214).  The
contest-id assertion of source line 188 is recorded on the already-validated
`Decryption of Tallies` set, exactly as the source does; the state is the
pair (spoils set, tally-decryption set). -/
def spContest (c : Crypto) (gu : List (String × CoefficientValidationSet))
    (gen qbar : Nat) (d : ElectionDescription) (st : Invariants × Invariants)
    (ct : TallyContest) : Option (Invariants × Invariants) :=
  let td := ensureC st.2 lblTallyContestKnown (dictContains (contestsIndex d) ct.object_id)
  match foldOptS (fun i sel => spSelection c gu gen qbar i sel) ct.selections st.1 with
  | none => none
  | some sp => some (sp, td)

/-- Ballot loop of the spoiled-ballots stage (verify.py 186-187). -/
def spBallot (c : Crypto) (gu : List (String × CoefficientValidationSet))
    (gen qbar : Nat) (d : ElectionDescription) (st : Invariants × Invariants)
    (b : List TallyContest) : Option (Invariants × Invariants) :=
  foldOptS (fun st ct => spContest c gu gen qbar d st ct) b st

/-- Stage `Spoiled Ballots` (verify.py 185-216), threading the
tally-decryption invariant set that source line 188 mutates. -/
def spoilsStage (c : Crypto) (a : Artifact) (td : Invariants) :
    Option (Invariants × Invariants) :=
  let gu := guardiansIndex a.coefficient_validation_sets
  foldOptS
    (fun st b => spBallot c gu a.constants.generator a.context.crypto_extended_base_hash
      a.description st b)
    a.plaintext_tally.spoiled_ballots (Invariants.mk titleSpoils [], td)

/-! ## The orchestrator -/

/-- The `verify` function of verify.py, with its `validate()` log: the first
component lists, in order, the titles of the invariant sets on which
`validate()` was called; the second component is `some` of the returned
verdict, or `none` when a data error raised an exception before the run
completed. -/
def verifyLog (c : Crypto) (a : Artifact) : List String × Option Bool :=
  let i1 := stage1 c a
  if i1.validate then
    match stage2 c a with
    | none => ([titleParameters], none)
    | some (i2, _) =>
      if i2.validate then
        let i3 := stage3 c a
        if i3.validate then
          match stage4 c a with
          | none => ([titleParameters, titlePublicKeys, titleSelections], none)
          | some i4 =>
            if i4.validate then
              if chainingInv.validate then
                match stage6 c a with
                | none => ([titleParameters, titlePublicKeys, titleSelections,
                            titleVoteLimits, titleChaining], none)
                | some i6 =>
                  if i6.validate then
                    let i7 := stage7 c a
                    if i7.validate then
                      if reconInv.validate then
                        let i8 := stage8 c a
                        if i8.validate then
                          match spoilsStage c a i8 with
                          | none => ([titleParameters, titlePublicKeys, titleSelections,
                                      titleVoteLimits, titleChaining, titleAggregations,
                                      titleMissing, titleRecon, titleTallyDec], none)
                          | some (isp, _) =>
                            if isp.validate then
                              ([titleParameters, titlePublicKeys, titleSelections,
                                titleVoteLimits, titleChaining, titleAggregations,
                                titleMissing, titleRecon, titleTallyDec, titleSpoils],
                               some true)
                            else
                              ([titleParameters, titlePublicKeys, titleSelections,
                                titleVoteLimits, titleChaining, titleAggregations,
                                titleMissing, titleRecon, titleTallyDec, titleSpoils],
                               some false)
                        else ([titleParameters, titlePublicKeys, titleSelections,
                               titleVoteLimits, titleChaining, titleAggregations,
                               titleMissing, titleRecon, titleTallyDec], some false)
                      else ([titleParameters, titlePublicKeys, titleSelections,
                             titleVoteLimits, titleChaining, titleAggregations,
                             titleMissing, titleRecon], some false)
                    else ([titleParameters, titlePublicKeys, titleSelections,
                           titleVoteLimits, titleChaining, titleAggregations,
                           titleMissing], some false)
                  else ([titleParameters, titlePublicKeys, titleSelections,
                         titleVoteLimits, titleChaining, titleAggregations], some false)
              else ([titleParameters, titlePublicKeys, titleSelections,
                     titleVoteLimits, titleChaining], some false)
            else ([titleParameters, titlePublicKeys, titleSelections,
                   titleVoteLimits], some false)
        else ([titleParameters, titlePublicKeys, titleSelections], some false)
      else ([titleParameters, titlePublicKeys], some false)
  else ([titleParameters], some false)

/-- The verdict of `verify`: `some b` for a normal return, `none` for an
exception raised by a data error. -/
def verify (c : Crypto) (a : Artifact) : Option Bool :=
  (verifyLog c a).2

/-! ## Algebra of `ensure` and `validate` -/

theorem foldl_and_eq (xs : List (String × Bool)) :
    ∀ b : Bool, xs.foldl (fun validity kv => validity && kv.2) b = (b && xs.all (fun kv => kv.2)) := by
  induction xs with
  | nil => intro b; simp [List.all_nil]
  | cons x rest ih =>
      intro b
      simp only [List.foldl_cons, List.all_cons, ih (b && x.2), Bool.and_assoc]

theorem validate_eq_all (i : Invariants) :
    i.validate = i.conditions.all (fun kv => kv.2) := by
  simpa using foldl_and_eq i.conditions true

theorem all_updateKey (l : String) (c : Bool) :
    ∀ xs : List (String × Bool), dictContains xs l = true →
      (updateKey xs l c).all (fun kv => kv.2) = (xs.all (fun kv => kv.2) && c) := by
  intro xs
  induction xs with
  | nil => intro h; simp [dictContains] at h
  | cons x rest ih =>
      intro h
      obtain ⟨k, v⟩ := x
      simp only [dictContains, Bool.or_eq_true] at h
      by_cases hk : (k == l) = true
      · simp only [updateKey, hk, if_true, List.all_cons]
        cases v <;> cases c <;> simp
      · have hrest : dictContains rest l = true := by
          rcases h with h | h
          · exact absurd h hk
          · exact h
        simp only [updateKey]
        rw [if_neg hk]
        simp only [List.all_cons]
        rw [ih hrest, Bool.and_assoc]

theorem validate_ensure (i : Invariants) (l : String) (c : Bool) :
    (i.ensure l c).1.validate = (i.validate && c) := by
  rw [validate_eq_all, validate_eq_all, Invariants.ensure]
  by_cases h : dictContains i.conditions l = true
  · rw [if_pos h]
    exact all_updateKey l c i.conditions h
  · rw [if_neg h]
    simp only [List.all_append, List.all_cons, List.all_nil, Bool.and_true]

theorem validate_ensureC (i : Invariants) (l : String) (c : Bool) :
    (ensureC i l c).validate = (i.validate && c) :=
  validate_ensure i l c

/-- Left folds of pure `ensure` loops: the validity of the result is the
validity of the start conjoined with the per-element conditions. -/
theorem validate_foldl {α : Type} (f : Invariants → α → Invariants) (g : α → Bool)
    (hf : ∀ i x, (f i x).validate = (i.validate && g x)) :
    ∀ (xs : List α) (i : Invariants),
      (xs.foldl f i).validate = (i.validate && xs.all g) := by
  intro xs
  induction xs with
  | nil => intro i; simp
  | cons x rest ih =>
      intro i
      simp only [List.foldl_cons, List.all_cons, ih (f i x), hf, Bool.and_assoc]

/-- Folds of raising `ensure` loops: when the fold completes, its validity is
the validity of the start conjoined with the per-element conditions. -/
theorem validate_foldOptS {α : Type} (f : Invariants → α → Option Invariants) (g : α → Bool)
    (hf : ∀ i x i', f i x = some i' → i'.validate = (i.validate && g x)) :
    ∀ (xs : List α) (i i' : Invariants),
      foldOptS f xs i = some i' → i'.validate = (i.validate && xs.all g) := by
  intro xs
  induction xs with
  | nil =>
      intro i i' h
      simp only [foldOptS] at h
      cases h
      simp
  | cons x rest ih =>
      intro i i' h
      simp only [foldOptS] at h
      cases hfx : f i x with
      | none => rw [hfx] at h; cases h
      | some imid =>
          rw [hfx] at h
          rw [List.all_cons, ih imid i' h, hf i x imid hfx, Bool.and_assoc]

/-! ## Lookup lemmas for `ensure` -/

theorem dictLookup_updateKey_self (l : String) (c : Bool) :
    ∀ xs : List (String × Bool),
      dictLookup (updateKey xs l c) l = (dictLookup xs l).map (fun v => v && c) := by
  intro xs
  induction xs with
  | nil => simp [updateKey, dictLookup]
  | cons x rest ih =>
      obtain ⟨k, v⟩ := x
      by_cases hk : (k == l) = true
      · simp [updateKey, dictLookup, hk]
      · simp only [updateKey, hk, if_false, dictLookup, ih]
        simp [hk]

theorem dictLookup_append_absent (l : String) (c : Bool) :
    ∀ xs : List (String × Bool), dictContains xs l = false →
      dictLookup (xs ++ [(l, c)]) l = some c := by
  intro xs
  induction xs with
  | nil => intro _; simp [dictLookup]
  | cons x rest ih =>
      intro h
      obtain ⟨k, v⟩ := x
      simp only [dictContains, Bool.or_eq_false_iff] at h
      simp only [List.cons_append, dictLookup, h.1, if_false]
      exact ih h.2

theorem dictContains_false_lookup (l : String) :
    ∀ xs : List (String × Bool), dictContains xs l = false → dictLookup xs l = none := by
  intro xs
  induction xs with
  | nil => intro _; rfl
  | cons x rest ih =>
      intro h
      obtain ⟨k, v⟩ := x
      simp only [dictContains, Bool.or_eq_false_iff] at h
      simp only [dictLookup, h.1, if_false]
      exact ih h.2

theorem dictContains_true_lookup (l : String) :
    ∀ xs : List (String × Bool), dictContains xs l = true → (dictLookup xs l).isSome := by
  intro xs
  induction xs with
  | nil => intro h; simp [dictContains] at h
  | cons x rest ih =>
      intro h
      obtain ⟨k, v⟩ := x
      simp only [dictContains, Bool.or_eq_true] at h
      by_cases hk : (k == l) = true
      · simp [dictLookup, hk]
      · simp only [dictLookup, hk, if_false]
        rcases h with h | h
        · exact absurd h hk
        · exact ih h

/-- The stored value under a label after `ensure` on that label. -/
theorem lookup_ensure_self (i : Invariants) (l : String) (c : Bool) :
    dictLookup (i.ensure l c).1.conditions l =
      some (match dictLookup i.conditions l with
            | some v => v && c
            | none => c) := by
  rw [Invariants.ensure]
  by_cases h : dictContains i.conditions l = true
  · simp only [h, if_true]
    rw [dictLookup_updateKey_self]
    have hs := dictContains_true_lookup l i.conditions h
    cases hv : dictLookup i.conditions l with
    | none => rw [hv] at hs; simp at hs
    | some v => simp
  · simp only [h, if_false]
    rw [dictContains_false_lookup l i.conditions (by simpa using h)]
    exact dictLookup_append_absent l c i.conditions (by simpa using h)

/-- `ensure` on a different label leaves a label's stored value unchanged. -/
theorem lookup_ensure_other (i : Invariants) (l l' : String) (c : Bool)
    (h : l' ≠ l) :
    dictLookup (i.ensure l' c).1.conditions l = dictLookup i.conditions l := by
  have hne : ∀ xs : List (String × Bool),
      dictLookup (updateKey xs l' c) l = dictLookup xs l := by
    intro xs
    induction xs with
    | nil => rfl
    | cons x rest ih =>
        obtain ⟨k, v⟩ := x
        by_cases hk : (k == l') = true
        · have hkl : (k == l) = false := by
            have : k = l' := by simpa using hk
            subst this
            simpa using h
          simp [updateKey, dictLookup, hk, hkl]
        · simp only [updateKey, hk, if_false, dictLookup]
          by_cases hkl : (k == l) = true
          · simp [hkl]
          · simp [hkl, ih]
  have happ : dictLookup (i.conditions ++ [(l', c)]) l = dictLookup i.conditions l := by
    induction i.conditions with
    | nil =>
        simp only [List.nil_append, dictLookup]
        have : (l' == l) = false := by simpa using h
        simp [this]
    | cons x rest ih =>
        obtain ⟨k, v⟩ := x
        by_cases hk : (k == l) = true
        · simp [dictLookup, hk]
        · simp only [List.cons_append, dictLookup, hk, if_false]
          exact ih
  rw [Invariants.ensure]
  by_cases hc : dictContains i.conditions l' = true
  · simp only [hc, if_true]
    exact hne i.conditions
  · simp only [hc, if_false]
    exact happ

theorem lookup_ensureC_self (i : Invariants) (l : String) (c : Bool) :
    dictLookup (ensureC i l c).conditions l =
      some (match dictLookup i.conditions l with
            | some v => v && c
            | none => c) :=
  lookup_ensure_self i l c

theorem lookup_ensureC_other (i : Invariants) (l l' : String) (c : Bool) (h : l' ≠ l) :
    dictLookup (ensureC i l' c).conditions l = dictLookup i.conditions l :=
  lookup_ensure_other i l l' c h

/-! ## Key-set lemmas -/

theorem contains_updateKey (l' l : String) (c : Bool) :
    ∀ xs : List (String × Bool),
      dictContains (updateKey xs l c) l' = dictContains xs l' := by
  intro xs
  induction xs with
  | nil => rfl
  | cons x rest ih =>
      obtain ⟨k, v⟩ := x
      by_cases hk : (k == l) = true
      · simp [updateKey, dictContains, hk]
      · simp only [updateKey]
        rw [if_neg hk]
        simp [dictContains, ih]

theorem contains_append_single (l' l : String) (c : Bool) :
    ∀ xs : List (String × Bool),
      dictContains (xs ++ [(l, c)]) l' = (dictContains xs l' || (l == l')) := by
  intro xs
  induction xs with
  | nil => simp [dictContains]
  | cons x rest ih =>
      obtain ⟨k, v⟩ := x
      simp [dictContains, ih, Bool.or_assoc]

theorem contains_ensureC (i : Invariants) (l l' : String) (c : Bool)
    (h : dictContains (ensureC i l c).conditions l' = true) :
    dictContains i.conditions l' = true ∨ l' = l := by
  rw [ensureC, Invariants.ensure] at h
  by_cases hc : dictContains i.conditions l = true
  · rw [if_pos hc] at h
    simp only at h
    rw [contains_updateKey] at h
    exact Or.inl h
  · rw [if_neg hc] at h
    simp only at h
    rw [contains_append_single] at h
    rcases Bool.or_eq_true_iff.mp h with h | h
    · exact Or.inl h
    · exact Or.inr (eq_of_beq h).symm

theorem contains_foldl {α : Type} (f : Invariants → α → Invariants) (P : String → Prop)
    (hf : ∀ i x l', dictContains (f i x).conditions l' = true →
      dictContains i.conditions l' = true ∨ P l') :
    ∀ (xs : List α) (i : Invariants) (l' : String),
      dictContains (xs.foldl f i).conditions l' = true →
      dictContains i.conditions l' = true ∨ P l' := by
  intro xs
  induction xs with
  | nil => intro i l' h; exact Or.inl h
  | cons x rest ih =>
      intro i l' h
      rcases ih (f i x) l' h with h' | h'
      · exact hf i x l' h'
      · exact Or.inr h'

/-! ## Dict value lemmas -/

theorem dictLookup_mem_values {β : Type} :
    ∀ (m : List (String × β)) (k : String) (v : β),
      dictLookup m k = some v → v ∈ m.map Prod.snd := by
  intro m
  induction m with
  | nil => intro k v h; cases h
  | cons x rest ih =>
      intro k v h
      obtain ⟨k', v'⟩ := x
      by_cases hk : (k' == k) = true
      · rw [dictLookup, if_pos hk] at h
        cases h
        simp
      · rw [dictLookup, if_neg hk] at h
        simp only [List.map_cons, List.mem_cons]
        exact Or.inr (ih k v h)

theorem dictInsert_values_subset {β : Type} :
    ∀ (m : List (String × β)) (k : String) (v x : β),
      x ∈ (dictInsert m k v).map Prod.snd → x ∈ m.map Prod.snd ∨ x = v := by
  intro m
  induction m with
  | nil => intro k v x h; simp [dictInsert] at h; exact Or.inr h
  | cons y rest ih =>
      intro k v x h
      obtain ⟨k', v'⟩ := y
      by_cases hk : (k' == k) = true
      · rw [dictInsert, if_pos hk] at h
        simp only [List.map_cons, List.mem_cons] at h
        rcases h with h | h
        · exact Or.inr h
        · exact Or.inl (by simp [h])
      · rw [dictInsert, if_neg hk] at h
        simp only [List.map_cons, List.mem_cons] at h
        rcases h with h | h
        · exact Or.inl (by simp [h])
        · rcases ih k v x h with h' | h'
          · refine Or.inl ?_
            rw [List.map_cons]
            exact List.mem_cons_of_mem _ h'
          · exact Or.inr h'

theorem guardiansFold_values :
    ∀ (gs : List CoefficientValidationSet) (m : List (String × CoefficientValidationSet))
      (x : CoefficientValidationSet),
      x ∈ ((gs.foldl (fun m g => dictInsert m g.owner_id g) m).map Prod.snd) →
      x ∈ m.map Prod.snd ∨ x ∈ gs := by
  intro gs
  induction gs with
  | nil => intro m x h; exact Or.inl h
  | cons g rest ih =>
      intro m x h
      rcases ih (dictInsert m g.owner_id g) x h with h' | h'
      · rcases dictInsert_values_subset m g.owner_id g x h' with h'' | h''
        · exact Or.inl h''
        · exact Or.inr (by simp [h''])
      · exact Or.inr (by simp [List.mem_cons]; exact Or.inr h')

/-- A guardian found in the `Guardians` index is one of the supplied
coefficient validation sets. -/
theorem guardiansIndex_mem (gs : List CoefficientValidationSet) (gid : String)
    (g : CoefficientValidationSet) (h : dictLookup (guardiansIndex gs) gid = some g) :
    g ∈ gs := by
  have hv := dictLookup_mem_values (guardiansIndex gs) gid g h
  rcases guardiansFold_values gs [] g hv with h' | h'
  · simp at h'
  · exact h'

/-! ## Stage condition summaries (derived forms used only in theorem
statements and proofs; the stage definitions above remain the embedding) -/

/-- The conjunction of the conditions stage 7 asserts on one recovered part. -/
def s7PartCond (c : Crypto) (gu : List (String × CoefficientValidationSet))
    (gen qbar : Nat) (sel : TallySelection) (part : RecoveredPart) : Bool :=
  is_in_bounds c part.proof.response &&
  is_valid_residue c part.proof.pad &&
  is_valid_residue c part.proof.data &&
  (part.proof.challenge ==
    c.H [qbar, sel.message.pad, sel.message.data, part.proof.pad, part.proof.data, part.share]) &&
  (pow_p c sel.message.pad part.proof.response ==
    mult_p c part.proof.data (pow_p c part.share part.proof.challenge)) &&
  (match dictLookup gu part.guardian_id with
   | some _ => pow_p c gen part.proof.response ==
       mult_p c part.proof.pad (pow_p c part.recovery_key part.proof.challenge)
   | none => false)

/-- The xor condition stage 7 asserts on one tally share (verify.py 150). -/
def xorShareCond (sh : TallyShare) : Bool :=
  Bool.xor sh.proof.isNone sh.recovered_parts.isEmpty

/-- The conjunction of the conditions stage 7 asserts on one tally share. -/
def s7ShareCond (c : Crypto) (gu : List (String × CoefficientValidationSet))
    (gen qbar : Nat) (sel : TallySelection) (sh : TallyShare) : Bool :=
  xorShareCond sh && sh.recovered_parts.all (s7PartCond c gu gen qbar sel)

theorem validate_s7Part (c : Crypto) (gu : List (String × CoefficientValidationSet))
    (gen qbar : Nat) (sel : TallySelection) (i : Invariants) (part : RecoveredPart) :
    (s7Part c gu gen qbar sel i part).validate = (i.validate && s7PartCond c gu gen qbar sel part) := by
  unfold s7Part s7PartCond
  cases hgu : dictLookup gu part.guardian_id <;>
    simp [hgu, validate_ensureC, Bool.and_assoc]

theorem validate_s7Share (c : Crypto) (gu : List (String × CoefficientValidationSet))
    (gen qbar : Nat) (sel : TallySelection) (i : Invariants) (sh : TallyShare) :
    (s7Share c gu gen qbar sel i sh).validate = (i.validate && s7ShareCond c gu gen qbar sel sh) := by
  unfold s7Share s7ShareCond xorShareCond
  cases hre : sh.recovered_parts with
  | nil => simp [hre, validate_ensureC, List.isEmpty]
  | cons p ps =>
      simp only [hre, List.isEmpty, Bool.false_eq_true, if_false]
      rw [validate_foldl (s7Part c gu gen qbar sel) (s7PartCond c gu gen qbar sel)
            (fun i part => validate_s7Part c gu gen qbar sel i part)]
      rw [validate_ensureC, Bool.and_assoc]

theorem validate_s7Selection (c : Crypto) (gu : List (String × CoefficientValidationSet))
    (gen qbar : Nat) (i : Invariants) (sel : TallySelection) :
    (s7Selection c gu gen qbar i sel).validate =
      (i.validate && sel.shares.all (s7ShareCond c gu gen qbar sel)) := by
  unfold s7Selection
  exact validate_foldl _ _ (fun i sh => validate_s7Share c gu gen qbar sel i sh) sel.shares i

theorem validate_s7Contest (c : Crypto) (gu : List (String × CoefficientValidationSet))
    (gen qbar : Nat) (i : Invariants) (ct : TallyContest) :
    (s7Contest c gu gen qbar i ct).validate =
      (i.validate && ct.selections.all (fun sel => sel.shares.all (s7ShareCond c gu gen qbar sel))) := by
  unfold s7Contest
  exact validate_foldl _ _ (fun i sel => validate_s7Selection c gu gen qbar i sel) ct.selections i

/-- Stage 7's verdict is the conjunction, over every share of every selection
of every tally contest, of the xor condition and the per-part conditions. -/
theorem validate_stage7 (c : Crypto) (a : Artifact) :
    (stage7 c a).validate =
      a.plaintext_tally.contests.all (fun ct =>
        ct.selections.all (fun sel =>
          sel.shares.all (s7ShareCond c (guardiansIndex a.coefficient_validation_sets)
            a.constants.generator a.context.crypto_extended_base_hash sel))) := by
  unfold stage7
  rw [validate_foldl _ _ (fun i ct => validate_s7Contest c
        (guardiansIndex a.coefficient_validation_sets) a.constants.generator
        a.context.crypto_extended_base_hash i ct)]
  simp [Invariants.validate]

/-- The first decryption equation of stage 8 on one tally selection. -/
def decBCond (c : Crypto) (sel : TallySelection) : Bool :=
  sel.message.data == multPList c (sel.value :: sel.shares.map (fun sh => sh.share))

/-- The second decryption equation of stage 8 on one tally selection. -/
def decMCond (c : Crypto) (gen : Nat) (sel : TallySelection) : Bool :=
  sel.value == pow_p c gen sel.tally

theorem validate_s8Selection (c : Crypto) (gen : Nat) (i : Invariants) (sel : TallySelection) :
    (s8Selection c gen i sel).validate = (i.validate && (decBCond c sel && decMCond c gen sel)) := by
  unfold s8Selection decBCond decMCond
  rw [validate_ensureC, validate_ensureC, Bool.and_assoc]

theorem validate_s8Contest (c : Crypto) (gen : Nat) (d : ElectionDescription)
    (i : Invariants) (ct : TallyContest) :
    (s8Contest c gen d i ct).validate =
      (i.validate && (dictContains (contestsIndex d) ct.object_id &&
        ct.selections.all (fun sel => decBCond c sel && decMCond c gen sel))) := by
  unfold s8Contest
  rw [validate_foldl _ _ (fun i sel => validate_s8Selection c gen i sel)]
  rw [validate_ensureC, Bool.and_assoc]

/-- Stage 8's verdict is the conjunction, over the tally contests, of the
contest-id membership condition and the two decryption equations of every
selection. -/
theorem validate_stage8 (c : Crypto) (a : Artifact) :
    (stage8 c a).validate =
      a.plaintext_tally.contests.all (fun ct =>
        dictContains (contestsIndex a.description) ct.object_id &&
        ct.selections.all (fun sel =>
          decBCond c sel && decMCond c a.constants.generator sel)) := by
  unfold stage8
  rw [validate_foldl _ _ (fun i ct => validate_s8Contest c a.constants.generator a.description i ct)]
  simp [Invariants.validate]

/-! ## Stage 2 characterization -/

theorem contains_s2ProofStep (c : Crypto) (gen : Nat) (i : Invariants) (pr : SchnorrProof)
    (l' : String) (h : dictContains (s2ProofStep c gen i pr).conditions l' = true) :
    dictContains i.conditions l' = true ∨ l' = lblCoeffChallenge ∨ l' = lblSchnorr := by
  simp only [s2ProofStep] at h
  rcases contains_ensureC _ _ _ _ h with h1 | h1
  · rcases contains_ensureC _ _ _ _ h1 with h2 | h2
    · exact Or.inl h2
    · exact Or.inr (Or.inl h2)
  · exact Or.inr (Or.inr h1)

/-- The guardian fold of stage 2: with nonempty commitment lists it never
raises, its accumulator is the running modular product of the first
commitments, and it records conditions only under the two per-proof labels. -/
theorem s2Loop_char (c : Crypto) (gen : Nat) :
    ∀ (gs : List CoefficientValidationSet) (st : Invariants × Nat),
      (∀ g ∈ gs, g.coefficient_commitments ≠ []) →
      ∃ i key, foldOptS (s2Guardian c gen) gs st = some (i, key) ∧
        key = (gs.map (fun g => g.coefficient_commitments.headD 0)).foldl (mult_p c) st.2 ∧
        (∀ l', dictContains i.conditions l' = true →
          dictContains st.1.conditions l' = true ∨ l' = lblCoeffChallenge ∨ l' = lblSchnorr) := by
  intro gs
  induction gs with
  | nil =>
      intro st _
      exact ⟨st.1, st.2, rfl, rfl, fun _ hl => Or.inl hl⟩
  | cons g rest ih =>
      intro st h
      cases hcm : g.coefficient_commitments with
      | nil => exact absurd hcm (h g (List.mem_cons_self g rest))
      | cons k0 ks =>
          have hstep : s2Guardian c gen st g =
              some (g.coefficient_proofs.foldl (s2ProofStep c gen) st.1, mult_p c st.2 k0) := by
            unfold s2Guardian
            rw [hcm]
            rfl
          obtain ⟨i, key, heq, hkey, hcont⟩ :=
            ih (g.coefficient_proofs.foldl (s2ProofStep c gen) st.1, mult_p c st.2 k0)
              (fun g' hg' => h g' (List.mem_cons_of_mem _ hg'))
          refine ⟨i, key, ?_, ?_, ?_⟩
          · simp only [foldOptS, hstep]
            exact heq
          · rw [List.map_cons, List.foldl_cons, hcm]
            simpa using hkey
          · intro l' hl
            rcases hcont l' hl with h' | h'
            · exact contains_foldl (s2ProofStep c gen)
                (fun l => l = lblCoeffChallenge ∨ l = lblSchnorr)
                (fun i pr l' hpr => contains_s2ProofStep c gen i pr l' hpr)
                g.coefficient_proofs st.1 l' h'
            · exact Or.inr h'

/-! ## Crash-freedom of the raising stages under well-formed guardians and
contest proofs -/

theorem foldOptS_some {σ α : Type} (f : σ → α → Option σ) :
    ∀ xs : List α, (∀ (s : σ) (x : α), x ∈ xs → ∃ s', f s x = some s') →
      ∀ s : σ, ∃ s', foldOptS f xs s = some s' := by
  intro xs
  induction xs with
  | nil => intro _ s; exact ⟨s, rfl⟩
  | cons x rest ih =>
      intro h s
      obtain ⟨s1, hs1⟩ := h s x (List.mem_cons_self x rest)
      obtain ⟨s2, hs2⟩ := ih (fun s y hy => h s y (List.mem_cons_of_mem _ hy)) s1
      refine ⟨s2, ?_⟩
      simp only [foldOptS, hs1]
      exact hs2

theorem stage2_isSome (c : Crypto) (a : Artifact)
    (hg : ∀ g ∈ a.coefficient_validation_sets, g.coefficient_commitments ≠ []) :
    ∃ r, stage2 c a = some r := by
  obtain ⟨i, key, heq, -, -⟩ := s2Loop_char c a.constants.generator
    a.coefficient_validation_sets (Invariants.mk titlePublicKeys [], int_to_p c 1) hg
  rw [← Option.isSome_iff_exists]
  unfold stage2
  rw [heq]
  rfl

theorem stage4_isSome (c : Crypto) (a : Artifact)
    (hb : ∀ b ∈ a.ciphertext_ballots, ∀ ct ∈ b.contests, ct.proof.isSome) :
    ∃ i, stage4 c a = some i := by
  unfold stage4
  apply foldOptS_some
  intro i b hbm
  unfold s4Ballot
  apply foldOptS_some
  intro i' ct hct
  cases hpr : ct.proof with
  | none =>
      have := hb b hbm ct hct
      rw [hpr] at this
      simp at this
  | some pr =>
      rw [← Option.isSome_iff_exists]
      unfold s4Contest
      rw [hpr]
      rfl

theorem directShareChecks_isSome (c : Crypto) (gs : List CoefficientValidationSet)
    (gen qbar : Nat) (sel : TallySelection) (i : Invariants) (sh : TallyShare) (pr : CPProof)
    (hg : ∀ g ∈ gs, g.coefficient_commitments ≠ []) :
    ∃ i', directShareChecks c (guardiansIndex gs) gen qbar sel i sh pr = some i' := by
  rw [← Option.isSome_iff_exists]
  unfold directShareChecks
  cases hlu : dictLookup (guardiansIndex gs) sh.guardian_id with
  | none => rfl
  | some g =>
      have hmem := guardiansIndex_mem gs sh.guardian_id g hlu
      cases hcm : g.coefficient_commitments with
      | nil => exact absurd hcm (hg g hmem)
      | cons k0 ks =>
          simp only
          rw [hcm]
          rfl

theorem s6Share_isSome (c : Crypto) (gs : List CoefficientValidationSet)
    (gen qbar : Nat) (sel : TallySelection) (i : Invariants) (sh : TallyShare)
    (hg : ∀ g ∈ gs, g.coefficient_commitments ≠ []) :
    ∃ i', s6Share c (guardiansIndex gs) gen qbar sel i sh = some i' := by
  unfold s6Share
  cases sh.proof with
  | none => exact ⟨i, rfl⟩
  | some pr => exact directShareChecks_isSome c gs gen qbar sel i sh pr hg

theorem stage6_isSome (c : Crypto) (a : Artifact)
    (hg : ∀ g ∈ a.coefficient_validation_sets, g.coefficient_commitments ≠ []) :
    ∃ i, stage6 c a = some i := by
  simp only [stage6]
  apply foldOptS_some
  intro i ct _
  simp only [s6Contest]
  apply foldOptS_some
  intro i' sel _
  simp only [s6Selection]
  apply foldOptS_some
  intro i'' sh _
  exact s6Share_isSome c a.coefficient_validation_sets _ _ sel i'' sh hg

theorem spShare_isSome (c : Crypto) (gs : List CoefficientValidationSet)
    (gen qbar : Nat) (sel : TallySelection) (i : Invariants) (sh : TallyShare)
    (hg : ∀ g ∈ gs, g.coefficient_commitments ≠ []) :
    ∃ i', spShare c (guardiansIndex gs) gen qbar sel i sh = some i' := by
  rw [← Option.isSome_iff_exists]
  simp only [spShare]
  obtain ⟨imid, hmid⟩ := s6Share_isSome c gs gen qbar sel
    (ensureC i lblXorShare (Bool.xor sh.proof.isNone sh.recovered_parts.isEmpty)) sh hg
  rw [hmid]
  rfl

theorem spSelection_isSome (c : Crypto) (gs : List CoefficientValidationSet)
    (gen qbar : Nat) (i : Invariants) (sel : TallySelection)
    (hg : ∀ g ∈ gs, g.coefficient_commitments ≠ []) :
    ∃ i', spSelection c (guardiansIndex gs) gen qbar i sel = some i' := by
  rw [← Option.isSome_iff_exists]
  simp only [spSelection]
  obtain ⟨imid, hmid⟩ := foldOptS_some
    (fun i sh => spShare c (guardiansIndex gs) gen qbar sel i sh) sel.shares
    (fun i' sh _ => spShare_isSome c gs gen qbar sel i' sh hg) i
  rw [hmid]
  rfl

theorem spoilsStage_isSome (c : Crypto) (a : Artifact) (td : Invariants)
    (hg : ∀ g ∈ a.coefficient_validation_sets, g.coefficient_commitments ≠ []) :
    ∃ r, spoilsStage c a td = some r := by
  simp only [spoilsStage]
  apply foldOptS_some
  intro st b _
  simp only [spBallot]
  apply foldOptS_some
  intro st' ct _
  rw [← Option.isSome_iff_exists]
  simp only [spContest]
  obtain ⟨sp, hsp⟩ := foldOptS_some
    (fun i sel => spSelection c (guardiansIndex a.coefficient_validation_sets)
      a.constants.generator a.context.crypto_extended_base_hash i sel)
    ct.selections
    (fun i sel _ => spSelection_isSome c a.coefficient_validation_sets
      a.constants.generator a.context.crypto_extended_base_hash i sel hg)
    st'.1
  rw [hsp]
  rfl

/-! ## Orchestrator characterization -/

/-- The full list of invariant-set titles, in validation order. -/
def stageTitles : List String :=
  [titleParameters, titlePublicKeys, titleSelections, titleVoteLimits, titleChaining,
   titleAggregations, titleMissing, titleRecon, titleTallyDec, titleSpoils]

/-- When no stage raises, `verifyLog` is the short-circuiting cascade of the
stage verdicts: the log is the prefix of titles up to and including the first
invalid set, and the verdict is `false` exactly when some set is invalid. -/
theorem verifyLog_char (c : Crypto) (a : Artifact) (i2 : Invariants) (k2 : Nat)
    (i4 i6 isp td2 : Invariants)
    (h2 : stage2 c a = some (i2, k2)) (h4 : stage4 c a = some i4)
    (h6 : stage6 c a = some i6)
    (hsp : spoilsStage c a (stage8 c a) = some (isp, td2)) :
    verifyLog c a =
      (if (stage1 c a).validate then
        if i2.validate then
          if (stage3 c a).validate then
            if i4.validate then
              if chainingInv.validate then
                if i6.validate then
                  if (stage7 c a).validate then
                    if reconInv.validate then
                      if (stage8 c a).validate then
                        if isp.validate then (stageTitles, some true)
                        else (stageTitles, some false)
                      else (stageTitles.take 9, some false)
                    else (stageTitles.take 8, some false)
                  else (stageTitles.take 7, some false)
                else (stageTitles.take 6, some false)
              else (stageTitles.take 5, some false)
            else (stageTitles.take 4, some false)
          else (stageTitles.take 3, some false)
        else (stageTitles.take 2, some false)
      else (stageTitles.take 1, some false)) := by
  simp only [verifyLog, h2, h4, h6, hsp]
  cases hv1 : (stage1 c a).validate
  · rfl
  · cases hv2 : i2.validate
    · rfl
    · cases hv3 : (stage3 c a).validate
      · rfl
      · cases hv4 : i4.validate
        · rfl
        · cases hv5 : chainingInv.validate
          · rfl
          · cases hv6 : i6.validate
            · rfl
            · cases hv7 : (stage7 c a).validate
              · rfl
              · cases hv8 : reconInv.validate
                · rfl
                · cases hv9 : (stage8 c a).validate
                  · rfl
                  · cases hv10 : isp.validate
                    · rfl
                    · rfl

/-- A `some true` verdict certifies that every invariant set the run built
validated to `true`. -/
theorem verify_some_true_validates (c : Crypto) (a : Artifact)
    (h : verify c a = some true) :
    (stage1 c a).validate = true ∧
    (∀ i2 k2, stage2 c a = some (i2, k2) → i2.validate = true) ∧
    (stage3 c a).validate = true ∧
    (∀ i4, stage4 c a = some i4 → i4.validate = true) ∧
    (∀ i6, stage6 c a = some i6 → i6.validate = true) ∧
    (stage7 c a).validate = true ∧
    (stage8 c a).validate = true ∧
    (∀ isp td2, spoilsStage c a (stage8 c a) = some (isp, td2) → isp.validate = true) := by
  simp only [verify, verifyLog] at h
  cases hv1 : (stage1 c a).validate
  · rw [hv1] at h
    simp at h
  · rw [hv1] at h
    simp only [if_true] at h
    cases h2 : stage2 c a with
    | none => rw [h2] at h; simp at h
    | some r2 =>
        obtain ⟨i2, k2⟩ := r2
        rw [h2] at h
        simp only at h
        cases hv2 : i2.validate
        · rw [hv2] at h
          simp at h
        · rw [hv2] at h
          simp only [if_true] at h
          cases hv3 : (stage3 c a).validate
          · rw [hv3] at h
            simp at h
          · rw [hv3] at h
            simp only [if_true] at h
            cases h4 : stage4 c a with
            | none => rw [h4] at h; simp at h
            | some i4 =>
                rw [h4] at h
                simp only at h
                cases hv4 : i4.validate
                · rw [hv4] at h
                  simp at h
                · rw [hv4] at h
                  simp only [if_true] at h
                  simp only [show chainingInv.validate = true from rfl, if_true] at h
                  cases h6 : stage6 c a with
                  | none => rw [h6] at h; simp at h
                  | some i6 =>
                      rw [h6] at h
                      simp only at h
                      cases hv6 : i6.validate
                      · rw [hv6] at h
                        simp at h
                      · rw [hv6] at h
                        simp only [if_true] at h
                        cases hv7 : (stage7 c a).validate
                        · rw [hv7] at h
                          simp at h
                        · rw [hv7] at h
                          simp only [if_true] at h
                          simp only [show reconInv.validate = true from rfl, if_true] at h
                          cases hv9 : (stage8 c a).validate
                          · rw [hv9] at h
                            simp at h
                          · rw [hv9] at h
                            simp only [if_true] at h
                            cases hsp : spoilsStage c a (stage8 c a) with
                            | none => rw [hsp] at h; simp at h
                            | some rsp =>
                                obtain ⟨isp, td2⟩ := rsp
                                rw [hsp] at h
                                simp only at h
                                cases hv10 : isp.validate
                                · rw [hv10] at h
                                  simp at h
                                · refine ⟨rfl, ?_, rfl, ?_, ?_, rfl, rfl, ?_⟩
                                  · intro i2' k2' heq
                                    injection heq with hpair
                                    cases hpair
                                    exact hv2
                                  · intro i4' heq
                                    injection heq with hpair
                                    cases hpair
                                    exact hv4
                                  · intro i6' heq
                                    injection heq with hpair
                                    cases hpair
                                    exact hv6
                                  · intro isp' td2' heq
                                    injection heq with hpair
                                    cases hpair
                                    exact hv10

/-! ## Concrete instances used by counterexamples and witnesses

The group parameters are instantiated with the small subgroup of order 11
inside the multiplicative group mod 23 (2 generates it: 2^11 = 2048 = 1 mod
23), and the hash is the constant zero function; the engine's behaviour on
these claims is independent of the parameter values. -/

def cTest : Crypto :=
  ⟨23, 11, 2, 2, fun _ => 0⟩

def descEmpty : ElectionDescription :=
  ⟨[], 7⟩

def ctxTest : Context :=
  ⟨1, 1, 1, 0, 0⟩

def constsTest : ElectionConstants :=
  ⟨23, 11, 2, 2⟩

/-- An artifact with no ballots, no guardians and an empty tally: every stage
passes vacuously. -/
def artBase : Artifact :=
  ⟨descEmpty, ctxTest, constsTest, [], ⟨[], []⟩, []⟩

/-- The artifact of C2: valid everywhere, except that its plaintext tally
carries one spoiled ballot holding one contest whose id is unknown to the
election description. -/
def ghostContest : TallyContest :=
  ⟨"ghost", []⟩

def artC2 : Artifact :=
  ⟨descEmpty, ctxTest, constsTest, [], ⟨[], [[ghostContest]]⟩, []⟩

/-- The artifact of C8's counterexample: one guardian whose coefficient
commitment list is empty. -/
def artC8 : Artifact :=
  ⟨descEmpty, ctxTest, constsTest, [], ⟨[], []⟩, [⟨"g1", [], []⟩]⟩

/-- A ballot selection whose `proof_one_pad` is a q-th residue (1) while its
`proof_one_data` (5) is not: 5^11 = 22 ≠ 1 (mod 23). -/
def selC1 : BallotSelection :=
  ⟨"s1", ⟨1, 1⟩, ⟨1, 1, 1, 5, 0, 0, 0, 0, 0⟩, false⟩

def shC5 : TallyShare :=
  ⟨"g1", 1, none, []⟩

def selC5 : TallySelection :=
  ⟨"s1", ⟨1, 1⟩, 1, 0, [shC5]⟩

def ctC5 : TallyContest :=
  ⟨"c1", [selC5]⟩

def artC5 : Artifact :=
  ⟨descEmpty, ctxTest, constsTest, [], ⟨[ctC5], []⟩, []⟩

def descC3 : ElectionDescription :=
  ⟨[⟨"c1", 0⟩], 7⟩

def selC3 : TallySelection :=
  ⟨"s1", ⟨1, 1⟩, 1, 0, []⟩

def artC3 : Artifact :=
  ⟨descC3, ctxTest, constsTest, [], ⟨[⟨"c1", [selC3]⟩], []⟩, []⟩

def artC4 : Artifact :=
  ⟨descEmpty, ⟨1, 1, 5, 0, 0⟩, constsTest, [], ⟨[], []⟩, [⟨"g1", [5], []⟩]⟩

def i2Base : Invariants :=
  ⟨titlePublicKeys, [(lblJointKey, true), (lblExtendedHash, true)]⟩

def bC10 : Ballot :=
  ⟨"b1", BallotBoxState.cast, []⟩

def cidTest : String := "c1"

def sidTest : String := "s1"

theorem keys_updateKey (l : String) (c : Bool) :
    ∀ xs : List (String × Bool), (updateKey xs l c).map Prod.fst = xs.map Prod.fst := by
  intro xs
  induction xs with
  | nil => rfl
  | cons x rest ih =>
      obtain ⟨k, v⟩ := x
      by_cases hk : (k == l) = true
      · rw [updateKey, if_pos hk]
        rfl
      · rw [updateKey, if_neg hk, List.map_cons, List.map_cons, ih]

/-! ## The claims -/

/-- C7: for every `Invariants` set, label and condition, `ensure` returns the
condition itself; it stores the condition under a new label and replaces the
stored value with the conjunction under an existing label; it never appends a
second entry for an existing label (the key list is unchanged, and a fresh
label is appended at the end); and `validate` returns the conjunction of all
stored values. -/
theorem c7_ensure_semantics (inv : Invariants) (l : String) (c : Bool) :
    ((inv.ensure l c).2 = c) ∧
    (dictLookup (inv.ensure l c).1.conditions l =
      some (match dictLookup inv.conditions l with
            | some v => v && c
            | none => c)) ∧
    ((inv.ensure l c).1.conditions.map Prod.fst =
      if dictContains inv.conditions l then inv.conditions.map Prod.fst
      else inv.conditions.map Prod.fst ++ [l]) ∧
    (inv.validate = inv.conditions.all (fun kv => kv.2)) := by
  refine ⟨?_, lookup_ensure_self inv l c, ?_, validate_eq_all inv⟩
  · rw [Invariants.ensure]
    split <;> rfl
  · rw [Invariants.ensure]
    by_cases h : dictContains inv.conditions l = true
    · rw [if_pos h, if_pos h]
      exact keys_updateKey l c inv.conditions
    · rw [if_neg h, if_neg h]
      simp

/-- C9: `validate` on an `Invariants` set with no recorded conditions returns
`true`; in particular the Ballot Chaining and Reconstructed Partial
Decryptions stages always validate to `true`, and with no ciphertext ballots
the Ballot Selection Encryptions and Vote Limits stages pass (the latter also
does not raise). -/
theorem c9_vacuous_stages (t : String) (c : Crypto) (a : Artifact)
    (hb : a.ciphertext_ballots = []) :
    (Invariants.mk t []).validate = true ∧
    chainingInv.validate = true ∧
    reconInv.validate = true ∧
    (stage3 c a).validate = true ∧
    stage4 c a = some (Invariants.mk titleVoteLimits []) := by
  refine ⟨rfl, rfl, rfl, ?_, ?_⟩
  · unfold stage3
    rw [hb]
    rfl
  · unfold stage4
    rw [hb]
    rfl

theorem c9_vacuous_stages_witness :
    (Invariants.mk titleChaining []).validate = true ∧
    chainingInv.validate = true ∧
    reconInv.validate = true ∧
    (stage3 cTest artBase).validate = true ∧
    stage4 cTest artBase = some (Invariants.mk titleVoteLimits []) :=
  c9_vacuous_stages titleChaining cTest artBase rfl

/-- C10: a cast ballot for which `get_selection` returns `None` contributes
the multiplicative identity to the recomputed aggregate of stage 6: the
per-ballot step leaves the accumulator unchanged, so removing the ballot from
the iterated list leaves the recomputed (A, B) as it was; the aggregation
loop records no invariant condition for any ballot. -/
theorem c10_null_selection_skipped (c : Crypto) (cid sid : String) (b : Ballot)
    (acc : Nat × Nat) (l1 l2 : List Ballot)
    (h : get_selection b cid sid = none) :
    aggStep c cid sid acc b = acc ∧
    (l1 ++ b :: l2).foldl (aggStep c cid sid) acc =
      (l1 ++ l2).foldl (aggStep c cid sid) acc := by
  have hstep : ∀ acc' : Nat × Nat, aggStep c cid sid acc' b = acc' := by
    intro acc'
    unfold aggStep
    rw [h]
    split <;> rfl
  refine ⟨hstep acc, ?_⟩
  rw [List.foldl_append, List.foldl_cons, hstep, ← List.foldl_append]

theorem c10_null_selection_skipped_witness :
    aggStep cTest cidTest sidTest (1, 1) bC10 = (1, 1) ∧
    ([] ++ bC10 :: []).foldl (aggStep cTest cidTest sidTest) (1, 1) =
      ([] ++ []).foldl (aggStep cTest cidTest sidTest) (1, 1) :=
  c10_null_selection_skipped cTest cidTest sidTest bC10 (1, 1) [] [] rfl

/-- C1: the condition stage 3 records under the label `b1 in Zp^r` evaluates
the q-th-residue test of the selection's `proof_one_pad`, not its
`proof_one_data` (verify.py line 75 re-tests `proof_one_pad`); on the
concrete selection `selC1` the recorded condition is `true` although
`proof_one_data` is not a q-th residue, so the claimed membership check on
b₁ never happens. -/
theorem c1_b1_label_tests_proof_one_pad :
    (∀ (c : Crypto) (gen K qbar : Nat) (sel : BallotSelection),
      dictLookup (s3Selection c gen K qbar (Invariants.mk titleSelections []) sel).conditions
          lblB1Res =
        some (is_valid_residue c sel.proof.proof_one_pad)) ∧
    dictLookup (s3Selection cTest 2 1 0 (Invariants.mk titleSelections []) selC1).conditions
        lblB1Res = some true ∧
    is_valid_residue cTest selC1.proof.proof_one_data = false := by
  refine ⟨?_, by decide, by decide⟩
  intro c gen K qbar sel
  simp only [s3Selection]
  rw [lookup_ensureC_other _ _ _ _ (by decide), lookup_ensureC_other _ _ _ _ (by decide),
      lookup_ensureC_other _ _ _ _ (by decide), lookup_ensureC_other _ _ _ _ (by decide),
      lookup_ensureC_other _ _ _ _ (by decide), lookup_ensureC_other _ _ _ _ (by decide),
      lookup_ensureC_other _ _ _ _ (by decide), lookup_ensureC_other _ _ _ _ (by decide),
      lookup_ensureC_other _ _ _ _ (by decide)]
  rw [lookup_ensureC_self]
  rw [lookup_ensureC_other _ _ _ _ (by decide), lookup_ensureC_other _ _ _ _ (by decide),
      lookup_ensureC_other _ _ _ _ (by decide), lookup_ensureC_other _ _ _ _ (by decide),
      lookup_ensureC_other _ _ _ _ (by decide)]
  rfl

/-- C2: an unknown contest id inside a spoiled ballot of the plaintext tally
does not make the verdict invalid: on `artC2` (valid everywhere, with one
spoiled-ballot contest whose id `ghost` is absent from the description)
`verify` returns `some true`, because the spoiled-ballot iteration records
the contest-id condition on the already-validated Decryption of Tallies set
(verify.py line 188) — as the third conjunct shows, the spoils set stays
empty and the `false` condition lands on the tally-decryption set, whose
`validate` is never called again. -/
theorem c2_spoiled_unknown_contest_accepted :
    verify cTest artC2 = some true ∧
    dictContains (contestsIndex artC2.description) ghostContest.object_id = false ∧
    spoilsStage cTest artC2 (stage8 cTest artC2) =
      some (Invariants.mk titleSpoils [],
            Invariants.mk titleTallyDec [(lblTallyContestKnown, false)]) := by
  refine ⟨?_, ?_, ?_⟩ <;> rfl

/-- C8 counterexample: a well-formed artifact containing a guardian whose
`coefficient_commitments` list is empty makes `verify` raise (the engine
calls `mult_p` on the `None` returned by `get_first_el`): the run aborts
with an exception instead of returning a verdict. -/
theorem c8_counterexample_empty_commitments_raises :
    verify cTest artC8 = none := by
  rfl

/-- The well-formedness assumption under which the engine cannot raise:
every guardian carries at least one coefficient commitment and every ballot
contest carries its aggregate proof. -/
def WellFormedInput (a : Artifact) : Prop :=
  (∀ g ∈ a.coefficient_validation_sets, g.coefficient_commitments ≠ []) ∧
  (∀ b ∈ a.ciphertext_ballots, ∀ ct ∈ b.contests, ct.proof.isSome)

/-- C8 amended: `verify` never raises for a data error provided every
guardian has a nonempty coefficient-commitment list and every ballot contest
has a proof; all other structural anomalies (unknown contest ids, unknown
guardian ids, shares with both or neither of proof and recovered parts)
become false invariant conditions and a `false` return, never an
exception. -/
theorem c8_amended_no_raise_when_wellformed (c : Crypto) (a : Artifact)
    (h : WellFormedInput a) :
    verify c a ≠ none := by
  obtain ⟨hg, hb⟩ := h
  obtain ⟨⟨i2, k2⟩, h2⟩ := stage2_isSome c a hg
  obtain ⟨i4, h4⟩ := stage4_isSome c a hb
  obtain ⟨i6, h6⟩ := stage6_isSome c a hg
  obtain ⟨⟨isp, td2⟩, hsp⟩ := spoilsStage_isSome c a (stage8 c a) hg
  unfold verify
  rw [verifyLog_char c a i2 k2 i4 i6 isp td2 h2 h4 h6 hsp]
  repeat' split
  all_goals simp

theorem c8_amended_no_raise_when_wellformed_witness :
    verify cTest artBase ≠ none :=
  c8_amended_no_raise_when_wellformed cTest artBase
    ⟨by decide, by decide⟩

/-- C5: a tally share carrying both a direct proof and recovered parts, or
neither, falsifies the condition labelled `tally share contains exactly one
proof or recovered part` recorded by stage 7, and the verdict cannot be
valid. -/
theorem c5_share_xor_exclusive (c : Crypto) (a : Artifact) (ct : TallyContest)
    (sel : TallySelection) (sh : TallyShare)
    (hct : ct ∈ a.plaintext_tally.contests) (hsel : sel ∈ ct.selections)
    (hsh : sh ∈ sel.shares)
    (hbad : (sh.proof.isSome = true ∧ sh.recovered_parts ≠ []) ∨
            (sh.proof = none ∧ sh.recovered_parts = [])) :
    xorShareCond sh = false ∧ verify c a ≠ some true := by
  have hxor : xorShareCond sh = false := by
    unfold xorShareCond
    rcases hbad with ⟨hp, hr⟩ | ⟨hp, hr⟩
    · cases hps : sh.proof with
      | none => rw [hps] at hp; simp at hp
      | some pr =>
          cases hre : sh.recovered_parts with
          | nil => exact absurd hre hr
          | cons x xs => rfl
    · rw [hp, hr]
      rfl
  refine ⟨hxor, ?_⟩
  intro hver
  have h7 := (verify_some_true_validates c a hver).2.2.2.2.2.1
  rw [validate_stage7, List.all_eq_true] at h7
  have h7ct := h7 ct hct
  rw [List.all_eq_true] at h7ct
  have h7sel := h7ct sel hsel
  rw [List.all_eq_true] at h7sel
  have h7sh := h7sel sh hsh
  unfold s7ShareCond at h7sh
  rw [Bool.and_eq_true] at h7sh
  rw [hxor] at h7sh
  exact absurd h7sh.1 (by simp)

theorem c5_share_xor_exclusive_witness :
    xorShareCond shC5 = false ∧ verify cTest artC5 ≠ some true :=
  c5_share_xor_exclusive cTest artC5 ctC5 selC5 shC5 (by decide) (by decide) (by decide)
    (Or.inr ⟨rfl, rfl⟩)

/-- C4: with every guardian carrying at least one coefficient commitment,
stage 2 completes and its accumulator is the modular product, seeded with the
multiplicative identity, of the first coefficient commitment of every
element of `coefficient_validation_sets`; the condition stored under the
joint-key label is exactly the equality of `context.elgamal_public_key` with
that product. -/
theorem c4_joint_key_roundtrip (c : Crypto) (a : Artifact)
    (hg : ∀ g ∈ a.coefficient_validation_sets, g.coefficient_commitments ≠ []) :
    ∃ i key, stage2 c a = some (i, key) ∧
      key = (a.coefficient_validation_sets.map
        (fun g => g.coefficient_commitments.headD 0)).foldl (mult_p c) (int_to_p c 1) ∧
      dictLookup i.conditions lblJointKey = some (a.context.elgamal_public_key == key) := by
  obtain ⟨i0, key, heq, hkey, hcont⟩ := s2Loop_char c a.constants.generator
    a.coefficient_validation_sets (Invariants.mk titlePublicKeys [], int_to_p c 1) hg
  refine ⟨ensureC (ensureC i0 lblJointKey (a.context.elgamal_public_key == key))
      lblExtendedHash (a.context.crypto_extended_base_hash ==
        c.H [a.context.crypto_base_hash, a.context.elgamal_public_key]),
    key, ?_, hkey, ?_⟩
  · unfold stage2
    rw [heq]
  · rw [lookup_ensureC_other _ _ _ _ (by decide)]
    rw [lookup_ensureC_self]
    have hnc : dictContains i0.conditions lblJointKey = false := by
      cases hcc : dictContains i0.conditions lblJointKey
      · rfl
      · rcases hcont lblJointKey hcc with h' | h' | h'
        · simp [dictContains] at h'
        · exact absurd h' (by decide)
        · exact absurd h' (by decide)
    rw [dictContains_false_lookup lblJointKey i0.conditions hnc]

theorem c4_joint_key_roundtrip_witness :
    ∃ i key, stage2 cTest artC4 = some (i, key) ∧
      key = (artC4.coefficient_validation_sets.map
        (fun g => g.coefficient_commitments.headD 0)).foldl (mult_p cTest) (int_to_p cTest 1) ∧
      dictLookup i.conditions lblJointKey =
        some (artC4.context.elgamal_public_key == key) :=
  c4_joint_key_roundtrip cTest artC4 (by decide)

/-- C3: when every tally contest id is known to the description, stage 8
validates exactly when, for every selection of every tally contest, both
decryption equations hold (the message data equals the value times the
modular product of the shares, and the value equals g to the announced
tally); and whenever either equation fails for some selection, `verify`
cannot return a valid verdict. -/
theorem c3_decryption_law (c : Crypto) (a : Artifact)
    (hknown : ∀ ct ∈ a.plaintext_tally.contests,
      dictContains (contestsIndex a.description) ct.object_id = true) :
    ((stage8 c a).validate = true ↔
      ∀ ct ∈ a.plaintext_tally.contests, ∀ sel ∈ ct.selections,
        decBCond c sel = true ∧ decMCond c a.constants.generator sel = true) ∧
    (∀ ct ∈ a.plaintext_tally.contests, ∀ sel ∈ ct.selections,
      (decBCond c sel = false ∨ decMCond c a.constants.generator sel = false) →
      verify c a ≠ some true) := by
  have hiff : (stage8 c a).validate = true ↔
      ∀ ct ∈ a.plaintext_tally.contests, ∀ sel ∈ ct.selections,
        decBCond c sel = true ∧ decMCond c a.constants.generator sel = true := by
    rw [validate_stage8, List.all_eq_true]
    constructor
    · intro h ct hct sel hsel
      have hc := h ct hct
      rw [Bool.and_eq_true] at hc
      have hs := hc.2
      rw [List.all_eq_true] at hs
      have := hs sel hsel
      rw [Bool.and_eq_true] at this
      exact this
    · intro h ct hct
      rw [Bool.and_eq_true]
      refine ⟨hknown ct hct, ?_⟩
      rw [List.all_eq_true]
      intro sel hsel
      rw [Bool.and_eq_true]
      exact h ct hct sel hsel
  refine ⟨hiff, ?_⟩
  intro ct hct sel hsel hbad hver
  have h8 := (verify_some_true_validates c a hver).2.2.2.2.2.2.1
  have := hiff.mp h8 ct hct sel hsel
  rcases hbad with hbad | hbad
  · rw [hbad] at this
    exact absurd this.1 (by simp)
  · rw [hbad] at this
    exact absurd this.2 (by simp)

theorem c3_decryption_law_witness :
    ((stage8 cTest artC3).validate = true ↔
      ∀ ct ∈ artC3.plaintext_tally.contests, ∀ sel ∈ ct.selections,
        decBCond cTest sel = true ∧ decMCond cTest artC3.constants.generator sel = true) ∧
    (∀ ct ∈ artC3.plaintext_tally.contests, ∀ sel ∈ ct.selections,
      (decBCond cTest sel = false ∨ decMCond cTest artC3.constants.generator sel = false) →
      verify cTest artC3 ≠ some true) :=
  c3_decryption_law cTest artC3 (by decide)

/-- C6: with no stage raising, the orchestrator validates the invariant sets
in the fixed order S1..S8 (with S7 comprising the recovered-data and
reconstruction sets and S8 the tally-decryption and spoiled-ballot sets): the
log of validated titles stops at the first invalid set, the verdict is
`false` as soon as one set is invalid (later sets are never validated), and
the verdict is `true` exactly when all sets validate. -/
theorem c6_short_circuit_order (c : Crypto) (a : Artifact) (i2 : Invariants) (k2 : Nat)
    (i4 i6 isp td2 : Invariants)
    (h2 : stage2 c a = some (i2, k2)) (h4 : stage4 c a = some i4)
    (h6 : stage6 c a = some i6)
    (hsp : spoilsStage c a (stage8 c a) = some (isp, td2)) :
    verifyLog c a =
      (if (stage1 c a).validate then
        if i2.validate then
          if (stage3 c a).validate then
            if i4.validate then
              if chainingInv.validate then
                if i6.validate then
                  if (stage7 c a).validate then
                    if reconInv.validate then
                      if (stage8 c a).validate then
                        if isp.validate then (stageTitles, some true)
                        else (stageTitles, some false)
                      else (stageTitles.take 9, some false)
                    else (stageTitles.take 8, some false)
                  else (stageTitles.take 7, some false)
                else (stageTitles.take 6, some false)
              else (stageTitles.take 5, some false)
            else (stageTitles.take 4, some false)
          else (stageTitles.take 3, some false)
        else (stageTitles.take 2, some false)
      else (stageTitles.take 1, some false)) :=
  verifyLog_char c a i2 k2 i4 i6 isp td2 h2 h4 h6 hsp

theorem c6_short_circuit_order_witness :
    verifyLog cTest artBase =
      (if (stage1 cTest artBase).validate then
        if i2Base.validate then
          if (stage3 cTest artBase).validate then
            if (Invariants.mk titleVoteLimits []).validate then
              if chainingInv.validate then
                if (Invariants.mk titleAggregations []).validate then
                  if (stage7 cTest artBase).validate then
                    if reconInv.validate then
                      if (stage8 cTest artBase).validate then
                        if (Invariants.mk titleSpoils []).validate then (stageTitles, some true)
                        else (stageTitles, some false)
                      else (stageTitles.take 9, some false)
                    else (stageTitles.take 8, some false)
                  else (stageTitles.take 7, some false)
                else (stageTitles.take 6, some false)
              else (stageTitles.take 5, some false)
            else (stageTitles.take 4, some false)
          else (stageTitles.take 3, some false)
        else (stageTitles.take 2, some false)
      else (stageTitles.take 1, some false)) :=
  c6_short_circuit_order cTest artBase i2Base 1 (Invariants.mk titleVoteLimits [])
    (Invariants.mk titleAggregations []) (Invariants.mk titleSpoils [])
    (Invariants.mk titleTallyDec []) rfl rfl rfl rfl
